import Mathlib

/-
Verification of the amplicon coverage pipeline script (drafts/cov.py).

Modelling conventions:
- Python strings are embedded as lists of characters (`Str`), so that the
  string operations the script uses (startswith, strip, splitext, basename,
  concatenation, lexicographic comparison) are all structural and executable.
- Python integers are `Int`; the float arithmetic inside `percentage`
  (100 * float(part) / float(whole) followed by round(_, 2)) is idealised as
  exact rational arithmetic with round-half-to-even, computed by the integer
  function `rhInt` so that concrete runs reduce in the kernel.
- The pandas data frame of coverage records is a `List CovRow`; groupby with
  its default ascending key sort is an insertion sort over deduplicated
  (sample, feature) keys.
- The external bedtools subprocess is an oracle `tool : Str -> Int × Str`
  giving the exit status and captured stderr of a command line.
- Fallible steps return `Except`; log-only steps return a Bool flag.
-/

/-- A Python string, embedded as its list of characters. -/
abbrev Str := List Char

/-- Coerces a Lean string literal to the `Str` embedding. -/
def str (s : String) : Str := s.data

/-- Characters removed by the Python method str.strip (whitespace). -/
def isSpaceChar (c : Char) : Bool :=
  c = ' ' || c = '\t' || c = '\n' || c = '\r' || c = '\x0b' || c = '\x0c'

/-- Python str.strip: removes leading and trailing whitespace. -/
def strip (l : Str) : Str :=
  ((l.dropWhile isSpaceChar).reverse.dropWhile isSpaceChar).reverse

/-- Python str.startswith: `startsWithB l p` is true when `p` is an initial
segment of `l`. -/
def startsWithB : Str → Str → Bool
  | _, [] => true
  | [], _ :: _ => false
  | c :: cs, d :: ds => c = d && startsWithB cs ds

/-- Python string comparison `<` (lexicographic on code points). -/
def strLtB : Str → Str → Bool
  | [], [] => false
  | [], _ :: _ => true
  | _ :: _, [] => false
  | c :: cs, d :: ds => c < d || (c = d && strLtB cs ds)

/-- Python os.path.basename: the part of a path after the last slash. -/
def basename (p : Str) : Str :=
  p.foldl (fun acc c => if c = '/' then [] else acc ++ [c]) []

/-- Index of the last occurrence of a dot in a name (Python str.rfind). -/
def rfindDot (l : Str) : Option ℕ :=
  (l.foldl (fun (st : ℕ × Option ℕ) c =>
    (st.1 + 1, if c = '.' then some st.1 else st.2)) (0, none)).2

/-- Python os.path.splitext, keeping only the root: the name is cut at its
last dot, except when every character before that dot is itself a dot
(so dotfiles keep their full name). -/
def splitextStem (n : Str) : Str :=
  match rfindDot n with
  | none => n
  | some i => if (n.take i).all (fun c => c = '.') then n else n.take i

/-- Name stem of a file path: os.path.splitext(os.path.basename(p))[0]. -/
def stemOf (p : Str) : Str := splitextStem (basename p)

/-- Python os.path.join for the relative, slash-free components the script
joins. -/
def pathJoin (a b : Str) : Str := a ++ str "/" ++ b

/-- Round-half-to-even of the fraction n / d (for d > 0) as Python round does
on a number, in pure integer arithmetic: f is the floor quotient, r the
remainder, and the half-way case picks the even neighbour. -/
def rhInt (n d : ℤ) : ℤ :=
  let f := n / d
  let r := n % d
  if 2 * r < d then f
  else if d < 2 * r then f + 1
  else if f % 2 = 0 then f else f + 1

/-- The percentage helper of cov.py: round(100 * part / whole, 2) when
whole > 0, and the sentinel -1 otherwise.  The two-decimal rounding of
100 * part / whole is the half-even rounding of 10000 * part / whole,
divided by 100. -/
def percentage (part whole : ℤ) : ℚ :=
  if 0 < whole then (rhInt (10000 * part) whole : ℚ) / 100 else -1

/-- One row of the merged per-base coverage table, as parsed with the fixed
7-column schema of parse_cov_file. -/
structure CovRow where
  ref : Str
  start : ℤ
  end_ : ℤ
  feature : Str
  base : ℤ
  coverage : ℤ
  sample : Str
deriving DecidableEq

/-- The groupby key of a record: its (sample, feature) pair. -/
def keyOf (r : CovRow) : Str × Str := (r.sample, r.feature)

/-- Coverage values of the (sample, feature) group of key k, in table order. -/
def groupCov (df : List CovRow) (k : Str × Str) : List ℤ :=
  (df.filter (fun r => keyOf r == k)).map (fun r => r.coverage)

/-- Ascending order on (sample, feature) keys, as pandas groupby sorts its
group keys. -/
def pairLeB (a b : Str × Str) : Bool :=
  strLtB a.1 b.1 || (a.1 == b.1 && !(strLtB b.2 a.2))

/-- Inserts a key into an already sorted key list. -/
def insertSorted (x : Str × Str) : List (Str × Str) → List (Str × Str)
  | [] => [x]
  | y :: ys => if pairLeB x y then x :: y :: ys else y :: insertSorted x ys

/-- Sorts a key list ascending (insertion sort). -/
def sortPairs (l : List (Str × Str)) : List (Str × Str) :=
  l.foldr insertSorted []

/-- The distinct (sample, feature) keys of the table, in the ascending order
pandas groupby produces them. -/
def sortedKeys (df : List CovRow) : List (Str × Str) :=
  sortPairs ((df.map keyOf).dedup)

/-- Truthiness of the optional coverage threshold: Python `if cov_threshold:`
is false both for None and for 0. -/
def covThreshTruthy : Option ℤ → Bool
  | none => false
  | some t => t != 0

/-- One output row of the stats sheet: sample, feature, min and max coverage
(np.min / np.max of the group), and the coverage-breadth percentage column,
present only when a truthy threshold was supplied. -/
structure StatsRow where
  sample : Str
  feature : Str
  covMin : Option ℤ
  covMax : Option ℤ
  breadth : Option ℚ
deriving DecidableEq

/-- The stats table written by _get_cov_stats: one row per (sample, feature)
group, with min and max coverage, and -- when the threshold is truthy -- the
percentage of records of the group whose coverage strictly exceeds the
threshold (np.size(np.where(x > cov_threshold)) over np.size(x)). -/
def _get_cov_stats (df : List CovRow) (cov_threshold : Option ℤ) :
    List StatsRow :=
  (sortedKeys df).map (fun k =>
    let cov := groupCov df k
    { sample := k.1
      feature := k.2
      covMin := cov.min?
      covMax := cov.max?
      breadth :=
        match cov_threshold with
        | some t =>
          if t = 0 then none
          else some (percentage (cov.countP (fun c => decide (t < c))) cov.length)
        | none => none })

/-- The first conditional format of the stats sheet: cell equal to 100
(green background). -/
def greenRule (v : ℚ) : Bool := v == 100

/-- The second conditional format: cell equal to 0 (red background). -/
def redRule (v : ℚ) : Bool := v == 0

/-- The third conditional format: cell between 0 and 100 (orange background).
The Excel criteria `between` used by the script is inclusive of both
endpoints. -/
def orangeRule (v : ℚ) : Bool := decide (0 ≤ v) && decide (v ≤ 100)

/-- The conditional formats _get_cov_stats attaches to the percentage column:
the three rules when the threshold is truthy, none otherwise. -/
def conditionalFormats (thr : Option ℤ) : List (ℚ → Bool) :=
  if covThreshTruthy thr then [greenRule, redRule, orangeRule] else []

/-- One figure produced by cov_plot: the plotted points, axis limits,
the optional horizontal threshold line, and the file name. -/
structure PlotSpec where
  sample : Str
  feature : Str
  points : List (ℤ × ℤ)
  ylimHi : Option ℤ
  xlimHi : Option ℤ
  hline : Option ℤ
  figname : Str
deriving DecidableEq

/-- The plots drawn by cov_plot: for each feature (the given list if truthy,
else the distinct features of the table) and each sample (the given list if
truthy, else the distinct samples of the feature slice), one figure of
(base, coverage) points, with y limit max coverage + 50, x limit max
base + 1, and a horizontal line at the threshold only when the threshold is
truthy. -/
def cov_plot (df : List CovRow) (cov_threshold : Option ℤ)
    (feats samps : Option (List Str)) : List PlotSpec :=
  let features : List Str :=
    match feats with
    | some (f :: fs) => f :: fs
    | _ => (df.map (fun r => r.feature)).dedup
  (features.map (fun (feature : Str) =>
    let df_feature : List CovRow := df.filter (fun r => r.feature == feature)
    let samples : List Str :=
      match samps with
      | some (s :: ss) => s :: ss
      | _ => (df_feature.map (fun r => r.sample)).dedup
    samples.map (fun (sample : Str) =>
      { sample := sample
        feature := feature
        points := (df_feature.filter (fun r => r.sample == sample)).map
          (fun r => (r.base, r.coverage))
        ylimHi := ((df_feature.map (fun r => r.coverage)).max?).map (fun m => m + 50)
        xlimHi := ((df_feature.map (fun r => r.base)).max?).map (fun m => m + 1)
        hline := if covThreshTruthy cov_threshold then cov_threshold else none
        figname := sample ++ str "-" ++ feature ++ str ".pbcov.png" : PlotSpec })
  )).flatten

/-- The threshold check of _get_options: a negative value raises, any
non-negative integer (0 included) is accepted. -/
def validateCovThreshold (t : ℤ) : Except Str ℤ :=
  if t < 0 then Except.error (str "Coverage threshold must be a positive integer")
  else Except.ok t

/-- The fixed 7-name column schema of parse_cov_file. -/
def covHeader : List Str :=
  [str "ref", str "start", str "end", str "feature", str "base",
   str "coverage", str "sample"]

/-- A loaded pandas data frame: its column names and its rows. -/
structure ParsedTable where
  colNames : List Str
  rows : List (List Str)
deriving DecidableEq

/-- parse_cov_file on a merged file whose rows have a uniform field count:
pd.read_csv yields a frame whose column count is the field count; the
assert/except block only logs (first component: whether the error was
logged) when that count differs from the 7-name schema; the subsequent
unconditional assignment df.columns = header then raises a pandas
length-mismatch ValueError whenever the counts differ, so the function
only returns a table in the matching case. -/
def parse_cov_file (rowsIn : List (List Str)) : Bool × Except Str ParsedTable :=
  let ncols := (rowsIn.headD []).length
  let logged := covHeader.length != ncols
  if covHeader.length = ncols
  then (logged, Except.ok { colNames := covHeader, rows := rowsIn })
  else (logged, Except.error (str "Length mismatch"))

/-- concatenate_files: writes, file by file in the given order, every line of
the file stripped of surrounding whitespace, followed by one tab and the
name stem of the file. -/
def concatenate_files (files : List (Str × List Str)) : List Str :=
  files.foldl
    (fun out f => out ++ f.2.map (fun line => strip line ++ str "\t" ++ stemOf f.1))
    []

/-- The substituted bedtools command template
`coverageBed -d -a $bed -b $bam | grep -v [quote]^all[quote] > $out` for one
sample, with bam, bed and out paths joined as in run_bedtools_get_cov. -/
def bedtoolsCmd (bamP bedP covP ind : Str) : Str :=
  str "coverageBed -d -a " ++ pathJoin bedP (ind ++ str ".bed") ++
  str " -b " ++ pathJoin bamP (ind ++ str ".bam") ++
  str " | grep -v \x27^all\x27 > " ++ pathJoin covP (ind ++ str ".pbcov")

/-- run_bedtools_get_cov: runs the substituted command for each sample in
order; returns the commands actually invoked and, when a command exits with
nonzero status, the RuntimeError payload (failing command, captured stderr);
the loop stops at the first failure.  `tool` is the external-process oracle
giving (exit status, stderr) of a command line. -/
def run_bedtools_get_cov (tool : Str → ℤ × Str) (bamP bedP covP : Str) :
    List Str → List Str × Option (Str × Str)
  | [] => ([], none)
  | ind :: rest =>
    let cmd := bedtoolsCmd bamP bedP covP ind
    let res := tool cmd
    if res.1 = 0 then
      let next := run_bedtools_get_cov tool bamP bedP covP rest
      (cmd :: next.1, next.2)
    else ([cmd], some (cmd, res.2))

/-- The BAM-matching loop of main: for each selected sample in order, the
first listed BAM file whose name starts with the sample id; returns
(samples_with_bam, bam_ordered). -/
def matchLoop (bams : List Str) : List Str → List Str × List Str
  | [] => ([], [])
  | s :: rest =>
    let next := matchLoop bams rest
    match bams.find? (fun b => startsWithB b s) with
    | some b => (s :: next.1, b :: next.2)
    | none => next

/-- The set difference set(samples) - set(samples_with_bam) of main: the
selected samples, deduplicated, that no listed BAM file name starts with. -/
def samplesWithoutBam (samples bams : List Str) : List Str :=
  samples.dedup.filter (fun s => !(bams.any (fun b => startsWithB b s)))

/-- Outcome of the coverage stage of main: either the ValueError raised when
some selected sample has no BAM file (carrying the reported list), or a
normal run carrying the bedtools commands invoked and the first failure if
any. -/
inductive RunOutcome where
  | noBamError (missing : List Str)
  | ran (invoked : List Str) (failure : Option (Str × Str))
deriving DecidableEq

/-- The portion of main from BAM matching to the bedtools loop: if any
selected sample has no matching BAM file, main raises before bedtools is
ever invoked; otherwise each matched BAM stem is processed in order by
run_bedtools_get_cov. -/
def mainRun (samples bams : List Str) (tool : Str → ℤ × Str)
    (bamP bedP covP : Str) : RunOutcome :=
  let without := samplesWithoutBam samples bams
  if without.isEmpty then
    let inds := (matchLoop bams samples).2.map splitextStem
    let r := run_bedtools_get_cov tool bamP bedP covP inds
    RunOutcome.ran r.1 r.2
  else RunOutcome.noBamError without

/-- A row of the coverage table of the spec scenario of section 8: sample,
feature, base and coverage (the remaining schema columns are fixed). -/
def mkRow (sample feature : Str) (base coverage : ℤ) : CovRow :=
  { ref := str "chr1", start := 0, end_ := 3, feature := feature,
    base := base, coverage := coverage, sample := sample }

/-- The scenario table: samples S1 and S2, one feature ampA, S1 with
coverage values [10, 40, 50] and S2 with [5, 5, 5]. -/
def exampleDf : List CovRow :=
  [mkRow (str "S1") (str "ampA") 1 10,
   mkRow (str "S1") (str "ampA") 2 40,
   mkRow (str "S1") (str "ampA") 3 50,
   mkRow (str "S2") (str "ampA") 1 5,
   mkRow (str "S2") (str "ampA") 2 5,
   mkRow (str "S2") (str "ampA") 3 5]

/-- A merged-file row with 6 fields instead of 7, for the schema-mismatch
scenario. -/
def sixFieldRows : List (List Str) :=
  [[str "chr1", str "0", str "10", str "ampA", str "1", str "5"]]

/-- The subprocess oracle of the witness scenario: the command of sample S2
fails with exit status 1 and stderr boom, every other command succeeds. -/
def demoTool : Str → ℤ × Str :=
  fun c =>
    if c = bedtoolsCmd (str "A") (str "B") (str "C") (str "S2")
    then (1, str "boom") else (0, [])

/-- Round-half-to-even of an exact multiple is exact. -/
theorem rhInt_exact (k d : ℤ) (hd : 0 < d) : rhInt (k * d) d = k := by
  have h1 : k * d / d = k := Int.mul_ediv_cancel k (ne_of_gt hd)
  have h2 : k * d % d = 0 := Int.mul_emod_left k d
  simp only [rhInt]
  rw [h1, h2]
  simp [hd]

/-- Round-half-to-even of a fraction of non-negatives is non-negative. -/
theorem rhInt_nonneg (n d : ℤ) (hn : 0 ≤ n) (hd : 0 < d) : 0 ≤ rhInt n d := by
  have hf : 0 ≤ n / d := Int.ediv_nonneg hn (le_of_lt hd)
  simp only [rhInt]
  split_ifs <;> omega

/-- Round-half-to-even of n / d is at most M when n is at most M * d. -/
theorem rhInt_le (n d M : ℤ) (hd : 0 < d) (hn : n ≤ M * d) : rhInt n d ≤ M := by
  have hf : n / d ≤ M := by
    have h := Int.ediv_le_ediv hd hn
    rwa [Int.mul_ediv_cancel M (ne_of_gt hd)] at h
  have hmod : d * (n / d) + n % d = n := Int.ediv_add_emod n d
  have hcomm : d * M = M * d := mul_comm d M
  simp only [rhInt]
  split_ifs with h1 h2 h3
  · exact hf
  · rcases lt_or_eq_of_le hf with h | h
    · exact Int.add_one_le_iff.mpr h
    · rw [h] at hmod
      linarith
  · exact hf
  · have h1' : d ≤ 2 * (n % d) := le_of_not_lt h1
    rcases lt_or_eq_of_le hf with h | h
    · exact Int.add_one_le_iff.mpr h
    · rw [h] at hmod
      linarith

/-- Round-half-to-even lands within half a unit of the exact fraction:
2 * |rhInt n d * d - n| is at most d. -/
theorem rhInt_err (n d : ℤ) (hd : 0 < d) : 2 * |rhInt n d * d - n| ≤ d := by
  have hmod : d * (n / d) + n % d = n := Int.ediv_add_emod n d
  have hr0 : 0 ≤ n % d := Int.emod_nonneg n (ne_of_gt hd)
  have hrd : n % d < d := Int.emod_lt_of_pos n hd
  have hcomm : d * (n / d) = n / d * d := mul_comm d (n / d)
  simp only [rhInt]
  split_ifs with h1 h2 h3
  · have e : n / d * d - n = -(n % d) := by linarith
    rw [e, abs_neg, abs_of_nonneg hr0]
    linarith
  · have hx : (n / d + 1) * d = n / d * d + d := by ring
    have e : (n / d + 1) * d - n = d - n % d := by rw [hx]; linarith
    have h1' : d ≤ 2 * (n % d) := le_of_not_lt h1
    rw [e, abs_of_nonneg (by linarith)]
    linarith
  · have h2' : 2 * (n % d) = d :=
      le_antisymm (le_of_not_lt h2) (le_of_not_lt h1)
    have e : n / d * d - n = -(n % d) := by linarith
    rw [e, abs_neg, abs_of_nonneg hr0]
    linarith
  · have h2' : 2 * (n % d) = d :=
      le_antisymm (le_of_not_lt h2) (le_of_not_lt h1)
    have hx : (n / d + 1) * d = n / d * d + d := by ring
    have e : (n / d + 1) * d - n = d - n % d := by rw [hx]; linarith
    rw [e, abs_of_nonneg (by linarith)]
    linarith

/-- C1: percentage(whole, whole) is exactly 100 when whole > 0,
percentage(0, whole) is exactly 0 when whole > 0, percentage(x, 0) is -1 for
every x, and percentage is a pure function of its two arguments, so repeated
calls with the same inputs return the same value. -/
theorem percentage_spec (part whole x w : ℤ) (hw : 0 < w) :
    percentage w w = 100 ∧ percentage 0 w = 0 ∧ percentage x 0 = -1 ∧
    percentage part whole = percentage part whole := by
  refine ⟨?_, ?_, ?_, rfl⟩
  · unfold percentage
    rw [if_pos hw, rhInt_exact 10000 w hw]
    norm_num
  · unfold percentage
    rw [if_pos hw, show (10000 : ℤ) * 0 = 0 * w by ring, rhInt_exact 0 w hw]
    norm_num
  · unfold percentage
    rw [if_neg (lt_irrefl 0)]

/-- Witness for C1 at part 3, whole 4, x 7, w 5. -/
theorem percentage_spec_witness :
    (0 : ℤ) < 5 ∧
    (percentage 5 5 = 100 ∧ percentage 0 5 = 0 ∧ percentage 7 0 = -1 ∧
     percentage 3 4 = percentage 3 4) :=
  ⟨by norm_num, percentage_spec 3 4 7 5 (by norm_num)⟩

/-- The percentage of a count over a positive total is between 0 and 100 and
within half a hundredth of the exact ratio 100 * c / n. -/
theorem percentage_bounds (c n : ℕ) (hn : 0 < n) (hcn : c ≤ n) :
    0 ≤ percentage c n ∧ percentage c n ≤ 100 ∧
    |percentage c n - 100 * (c : ℚ) / (n : ℚ)| ≤ 1 / 200 := by
  have hn' : (0 : ℤ) < (n : ℤ) := by exact_mod_cast hn
  have hR0 : 0 ≤ rhInt (10000 * (c : ℤ)) (n : ℤ) :=
    rhInt_nonneg _ _ (by positivity) hn'
  have hR1 : rhInt (10000 * (c : ℤ)) (n : ℤ) ≤ 10000 := by
    refine rhInt_le _ _ _ hn' ?_
    have : (c : ℤ) ≤ (n : ℤ) := by exact_mod_cast hcn
    nlinarith
  have herr : 2 * |rhInt (10000 * (c : ℤ)) (n : ℤ) * (n : ℤ) -
      10000 * (c : ℤ)| ≤ (n : ℤ) := rhInt_err _ _ hn'
  have hval : percentage c n = (rhInt (10000 * (c : ℤ)) (n : ℤ) : ℚ) / 100 := by
    unfold percentage
    rw [if_pos hn']
  have hnQ : (0 : ℚ) < (n : ℚ) := by exact_mod_cast hn
  have hn0 : (n : ℚ) ≠ 0 := ne_of_gt hnQ
  refine ⟨?_, ?_, ?_⟩
  · rw [hval]
    have : (0 : ℚ) ≤ (rhInt (10000 * (c : ℤ)) (n : ℤ) : ℚ) := by exact_mod_cast hR0
    positivity
  · rw [hval, div_le_iff₀ (by norm_num : (0 : ℚ) < 100)]
    calc (rhInt (10000 * (c : ℤ)) (n : ℤ) : ℚ) ≤ 10000 := by exact_mod_cast hR1
      _ = 100 * 100 := by norm_num
  · rw [hval]
    have key : (rhInt (10000 * (c : ℤ)) (n : ℤ) : ℚ) / 100 - 100 * (c : ℚ) / (n : ℚ) =
        ((rhInt (10000 * (c : ℤ)) (n : ℤ) * (n : ℤ) - 10000 * (c : ℤ) : ℤ) : ℚ) /
          (100 * (n : ℚ)) := by
      push_cast
      field_simp
      ring
    have hpos : (0 : ℚ) < 100 * (n : ℚ) := mul_pos (by norm_num) hnQ
    rw [key, abs_div, abs_of_pos hpos]
    rw [div_le_div_iff₀ hpos (by norm_num : (0 : ℚ) < 200)]
    have herrQ : 2 * |((rhInt (10000 * (c : ℤ)) (n : ℤ) * (n : ℤ) -
        10000 * (c : ℤ) : ℤ) : ℚ)| ≤ (n : ℚ) := by
      rw [← Int.cast_abs]
      exact_mod_cast herr
    linarith

/-- Inserting a key into a list permutes con[s]ing it on. -/
theorem insertSorted_perm (x : Str × Str) (l : List (Str × Str)) :
    (insertSorted x l).Perm (x :: l) := by
  induction l with
  | nil => simp [insertSorted]
  | cons y ys ih =>
    unfold insertSorted
    split_ifs
    · exact List.Perm.refl _
    · exact (List.Perm.cons y ih).trans (List.Perm.swap x y ys)

/-- The insertion sort of the key list is a permutation of the key list. -/
theorem sortPairs_perm (l : List (Str × Str)) : (sortPairs l).Perm l := by
  induction l with
  | nil => exact List.Perm.refl _
  | cons y ys ih =>
    exact (insertSorted_perm y (sortPairs ys)).trans (List.Perm.cons y ih)

/-- A key is a group key of the table exactly when some record carries it. -/
theorem mem_sortedKeys (df : List CovRow) (k : Str × Str) :
    k ∈ sortedKeys df ↔ k ∈ df.map keyOf :=
  ((sortPairs_perm _).mem_iff).trans List.mem_dedup

/-- The (sample, feature) pairs of the stats rows are exactly the sorted
group keys. -/
theorem stats_keys (df : List CovRow) (thr : Option ℤ) :
    (_get_cov_stats df thr).map (fun row => (row.sample, row.feature)) =
      sortedKeys df := by
  unfold _get_cov_stats
  rw [List.map_map]
  conv_rhs => rw [← List.map_id (sortedKeys df)]
  exact List.map_congr_left (fun k _ => rfl)

/-- C2: for every (sample, feature) key present in the table and every
nonzero threshold t, the stats sheet has a row of that key whose
coverage-breadth value is percentage(count of group records with coverage
strictly above t, group size); the group is non-empty, the value lies
between 0 and 100 and is the exact ratio 100 * count / total rounded to two
decimal places (it differs from the exact ratio by at most half a
hundredth); and on an empty group the percentage helper returns exactly -1. -/
theorem cov_breadth_spec (df : List CovRow) (t : ℤ) (k : Str × Str)
    (ht : t ≠ 0) (hk : k ∈ df.map keyOf) :
    ∃ row ∈ _get_cov_stats df (some t),
      row.sample = k.1 ∧ row.feature = k.2 ∧
      0 < (groupCov df k).length ∧
      row.breadth = some (percentage
        ((groupCov df k).countP (fun c => decide (t < c)))
        (groupCov df k).length) ∧
      (∀ v, row.breadth = some v →
        0 ≤ v ∧ v ≤ 100 ∧
        |v - 100 * ((groupCov df k).countP (fun c => decide (t < c)) : ℚ) /
          ((groupCov df k).length : ℚ)| ≤ 1 / 200) ∧
      (∀ c : ℤ, percentage c 0 = -1) := by
  have hk' : k ∈ sortedKeys df := (mem_sortedKeys df k).mpr hk
  obtain ⟨r, hr, hkeq⟩ := List.mem_map.mp hk
  have hfil : r ∈ df.filter (fun r => keyOf r == k) :=
    List.mem_filter.mpr ⟨hr, by simp [hkeq]⟩
  have hpos : 0 < (groupCov df k).length := by
    unfold groupCov
    exact List.length_pos.mpr
      (List.ne_nil_of_mem (List.mem_map_of_mem _ hfil))
  refine ⟨{ sample := k.1, feature := k.2, covMin := (groupCov df k).min?,
            covMax := (groupCov df k).max?,
            breadth := some (percentage
              ((groupCov df k).countP (fun c => decide (t < c)))
              (groupCov df k).length) }, ?_, rfl, rfl, hpos, rfl, ?_, ?_⟩
  · unfold _get_cov_stats
    refine List.mem_map.mpr ⟨k, hk', ?_⟩
    simp only [if_neg ht]
  · intro v hv
    obtain rfl := Option.some.inj hv
    exact percentage_bounds _ _ hpos (List.countP_le_length _)
  · intro c
    unfold percentage
    rw [if_neg (lt_irrefl 0)]

/-- Witness for C2 on the scenario table at key (S1, ampA), threshold 30. -/
theorem cov_breadth_spec_witness :
    ∃ row ∈ _get_cov_stats exampleDf (some 30),
      row.sample = str "S1" ∧ row.breadth = some (percentage 2 3) := by
  obtain ⟨row, hm, hs, _, _, hb, _, _⟩ :=
    cov_breadth_spec exampleDf 30 (str "S1", str "ampA") (by decide) (by decide)
  refine ⟨row, hm, hs, ?_⟩
  rw [hb]
  congr 1

/-- C3: on the scenario table (S1 with coverage [10, 40, 50], S2 with
[5, 5, 5], one feature ampA, threshold 30) the stats sheet is exactly the
two rows (S1, ampA, 10, 50, 66.67) and (S2, ampA, 5, 5, 0). -/
theorem stats_scenario :
    _get_cov_stats exampleDf (some 30) =
      [{ sample := str "S1", feature := str "ampA", covMin := some 10,
         covMax := some 50, breadth := some 66.67 },
       { sample := str "S2", feature := str "ampA", covMin := some 5,
         covMax := some 5, breadth := some 0 }] := by
  have e1 : percentage 2 3 = 66.67 := by
    unfold percentage
    rw [if_pos (by norm_num : (0 : ℤ) < 3),
      show rhInt (10000 * 2) 3 = 6667 from by decide]
    norm_num
  have e2 : percentage 0 3 = 0 := by
    unfold percentage
    rw [if_pos (by norm_num : (0 : ℤ) < 3),
      show rhInt (10000 * 0) 3 = 0 from by decide]
    norm_num
  have h : _get_cov_stats exampleDf (some 30) =
      [{ sample := str "S1", feature := str "ampA", covMin := some 10,
         covMax := some 50, breadth := some (percentage 2 3) },
       { sample := str "S2", feature := str "ampA", covMin := some 5,
         covMax := some 5, breadth := some (percentage 0 3) }] := rfl
  rw [h, e1, e2]

/-- C8: the stats sheet has one row per distinct (sample, feature) pair of
the table: the row count equals the number of distinct pairs, the pairs of
the rows are pairwise distinct, and a pair appears in a row exactly when
some record of the table carries it. -/
theorem stats_row_count (df : List CovRow) (thr : Option ℤ) :
    (_get_cov_stats df thr).length = ((df.map keyOf).dedup).length ∧
    ((_get_cov_stats df thr).map (fun row => (row.sample, row.feature))).Nodup ∧
    ∀ k : Str × Str,
      k ∈ (_get_cov_stats df thr).map (fun row => (row.sample, row.feature)) ↔
        k ∈ df.map keyOf := by
  refine ⟨?_, ?_, ?_⟩
  · calc (_get_cov_stats df thr).length
        = ((_get_cov_stats df thr).map
            (fun row => (row.sample, row.feature))).length :=
          (List.length_map _ _).symm
      _ = (sortedKeys df).length := by rw [stats_keys]
      _ = ((df.map keyOf).dedup).length := (sortPairs_perm _).length_eq
  · rw [stats_keys]
    exact (sortPairs_perm _).nodup_iff.mpr (List.nodup_dedup _)
  · intro k
    rw [stats_keys]
    exact mem_sortedKeys df k

/-- Witness for C8 on the scenario table with threshold 30. -/
theorem stats_row_count_witness :
    (_get_cov_stats exampleDf (some 30)).length =
      ((exampleDf.map keyOf).dedup).length ∧
    ((_get_cov_stats exampleDf (some 30)).map
      (fun row => (row.sample, row.feature))).Nodup ∧
    ∀ k : Str × Str,
      k ∈ (_get_cov_stats exampleDf (some 30)).map
          (fun row => (row.sample, row.feature)) ↔
        k ∈ exampleDf.map keyOf :=
  stats_row_count exampleDf (some 30)

/-- Counterexample for C9 as stated: the third highlight rule (between 0 and
100) is inclusive, so the value 100 triggers both the first and the third
rule, and the value 0 triggers both the second and the third; the rules are
not mutually exclusive. -/
theorem highlight_rules_overlap_cex :
    greenRule 100 = true ∧ orangeRule 100 = true ∧
    redRule 0 = true ∧ orangeRule 0 = true := by
  refine ⟨?_, ?_, ?_, ?_⟩ <;> norm_num [greenRule, redRule, orangeRule]

/-- C9 (amended): when a truthy threshold is supplied, three highlight rules
are applied to the percentage column: the first matches exactly 100, the
second exactly 0, and the third every value between 0 and 100 inclusive
(Excel between includes its endpoints), so the third overlaps the other two
at 0 and at 100 while the first two are mutually exclusive; with no
threshold, or threshold 0, no rule is applied. -/
theorem highlight_rules_spec (v : ℚ) (t : ℤ) :
    (greenRule v = true ↔ v = 100) ∧
    (redRule v = true ↔ v = 0) ∧
    (orangeRule v = true ↔ 0 ≤ v ∧ v ≤ 100) ∧
    ¬(greenRule v = true ∧ redRule v = true) ∧
    conditionalFormats none = [] ∧
    conditionalFormats (some 0) = [] ∧
    (t ≠ 0 → conditionalFormats (some t) = [greenRule, redRule, orangeRule]) := by
  refine ⟨by simp [greenRule], by simp [redRule], by simp [orangeRule],
    ?_, rfl, rfl, ?_⟩
  · rintro ⟨h1, h2⟩
    rw [greenRule, beq_iff_eq] at h1
    rw [redRule, beq_iff_eq] at h2
    rw [h1] at h2
    norm_num at h2
  · intro ht
    simp [conditionalFormats, covThreshTruthy, ht]

/-- Witness for C9 (amended) at value 50, threshold 30. -/
theorem highlight_rules_spec_witness :
    conditionalFormats (some 30) = [greenRule, redRule, orangeRule] ∧
    (orangeRule 50 = true ↔ (0 : ℚ) ≤ 50 ∧ (50 : ℚ) ≤ 100) :=
  ⟨(highlight_rules_spec 50 30).2.2.2.2.2.2 (by norm_num),
   (highlight_rules_spec 50 30).2.2.1⟩

/-- C10: a threshold of 0 passes option validation, but every downstream
consumer treats it as no threshold: the stats sheet is the same as with no
threshold (in particular every row has no coverage-breadth value), the
plots are the same as with no threshold (in particular no figure has a
horizontal threshold line), and no conditional format is applied. -/
theorem zero_threshold_spec (df : List CovRow) (feats samps : Option (List Str)) :
    validateCovThreshold 0 = Except.ok 0 ∧
    _get_cov_stats df (some 0) = _get_cov_stats df none ∧
    (∀ row ∈ _get_cov_stats df (some 0), row.breadth = none) ∧
    cov_plot df (some 0) feats samps = cov_plot df none feats samps ∧
    (∀ p ∈ cov_plot df (some 0) feats samps, p.hline = none) ∧
    conditionalFormats (some 0) = [] := by
  refine ⟨rfl, rfl, ?_, rfl, ?_, rfl⟩
  · intro row hr
    unfold _get_cov_stats at hr
    obtain ⟨k, _, hkr⟩ := List.mem_map.mp hr
    rw [← hkr]
    rfl
  · intro p hp
    simp only [cov_plot, List.mem_flatten, List.mem_map] at hp
    obtain ⟨inner, ⟨feature, _, hfe⟩, hpmem⟩ := hp
    subst hfe
    rw [List.mem_map] at hpmem
    obtain ⟨sample, _, hps⟩ := hpmem
    subst hps
    rfl

/-- Witness for C10 on the scenario table with default feature and sample
selections. -/
theorem zero_threshold_spec_witness :
    validateCovThreshold 0 = Except.ok 0 ∧
    _get_cov_stats exampleDf (some 0) = _get_cov_stats exampleDf none ∧
    (∀ row ∈ _get_cov_stats exampleDf (some 0), row.breadth = none) ∧
    cov_plot exampleDf (some 0) none none = cov_plot exampleDf none none none ∧
    (∀ p ∈ cov_plot exampleDf (some 0) none none, p.hline = none) ∧
    conditionalFormats (some 0) = [] :=
  zero_threshold_spec exampleDf none none

/-- C4: on a merged file whose rows have 6 fields instead of 7,
parse_cov_file produces the non-fatal log entry (first component true), but
the subsequent header assignment raises, so no loaded table is returned:
the run aborts rather than continuing with mis-assigned columns. -/
theorem parse_cov_file_mismatch :
    parse_cov_file sixFieldRows =
      (true, Except.error (str "Length mismatch")) := rfl

/-- The sequential write loop of concatenate_files appends, file by file,
the tagged lines of each file. -/
theorem foldl_append_eq_flatten (g : Str × List Str → List Str)
    (l : List (Str × List Str)) (acc : List Str) :
    l.foldl (fun out f => out ++ g f) acc = acc ++ (l.map g).flatten := by
  induction l generalizing acc with
  | nil => simp
  | cons a l ih => simp [ih, List.append_assoc]

/-- Sum of the lengths of lists that all have length R. -/
theorem sum_lengths_const (R : ℕ) :
    ∀ ls : List (List Str), (∀ l ∈ ls, l.length = R) →
      (ls.map List.length).sum = ls.length * R := by
  intro ls
  induction ls with
  | nil => intro _; simp
  | cons a ls ih =>
    intro h
    rw [List.map_cons, List.sum_cons,
      ih (fun l hl => h l (List.mem_cons_of_mem a hl)),
      h a (List.mem_cons_self a ls), List.length_cons, Nat.succ_mul,
      Nat.add_comm]

/-- Counterexample for C7 as stated: a source line with leading whitespace
is not copied verbatim; concatenate_files strips surrounding whitespace
before appending the tab and the stem, so the output line differs from the
source line with one extra field. -/
theorem concatenate_strips_whitespace_cex :
    concatenate_files [(str "s1.pbcov", [str " a"])] ≠
      [str " a" ++ str "\t" ++ stemOf (str "s1.pbcov")] := by decide

/-- C7 (amended): merging N per-sample coverage files of R lines each
produces exactly N * R output lines; the files are processed in the order
of the given list, and each output line is the corresponding source line
stripped of surrounding whitespace (the newline included), followed by
exactly one extra tab-separated field equal to the name stem of its source
file. -/
theorem concatenate_adds_sample_field (files : List (Str × List Str))
    (N R : ℕ) (hN : files.length = N) (hR : ∀ f ∈ files, f.2.length = R) :
    concatenate_files files =
      (files.map (fun f => f.2.map
        (fun line => strip line ++ str "\t" ++ stemOf f.1))).flatten ∧
    (concatenate_files files).length = N * R := by
  have hfl : concatenate_files files =
      (files.map (fun f => f.2.map
        (fun line => strip line ++ str "\t" ++ stemOf f.1))).flatten := by
    have h := foldl_append_eq_flatten
      (fun f => f.2.map (fun line => strip line ++ str "\t" ++ stemOf f.1))
      files []
    simpa [concatenate_files] using h
  refine ⟨hfl, ?_⟩
  have hlen : ∀ l ∈ files.map (fun f => f.2.map
      (fun line => strip line ++ str "\t" ++ stemOf f.1)), l.length = R := by
    intro l hl
    obtain ⟨f, hf, rfl⟩ := List.mem_map.mp hl
    rw [List.length_map]
    exact hR f hf
  rw [hfl, List.length_flatten, sum_lengths_const R _ hlen, List.length_map,
    hN]

/-- Witness for C7 (amended) on two one-line files. -/
theorem concatenate_adds_sample_field_witness :
    concatenate_files
        [(str "s1.pbcov", [str "a\tb"]), (str "s2.pbcov", [str "c\td"])] =
      ([(str "s1.pbcov", [str "a\tb"]),
        (str "s2.pbcov", [str "c\td"])].map (fun f => f.2.map
          (fun line => strip line ++ str "\t" ++ stemOf f.1))).flatten ∧
    (concatenate_files
        [(str "s1.pbcov", [str "a\tb"]), (str "s2.pbcov", [str "c\td"])]).length =
      2 * 1 :=
  concatenate_adds_sample_field _ 2 1 (by decide) (by decide)

/-- A successful find? returns the first element satisfying the predicate:
it satisfies the predicate and everything before it fails it. -/
theorem find?_first {α : Type} (p : α → Bool) (l : List α) (b : α)
    (h : l.find? p = some b) :
    p b = true ∧ ∃ l₁ l₂, l = l₁ ++ b :: l₂ ∧ ∀ x ∈ l₁, p x = false := by
  induction l with
  | nil => simp at h
  | cons a l ih =>
    cases ha : p a with
    | true =>
      rw [List.find?_cons_of_pos _ ha] at h
      obtain rfl := Option.some.inj h
      exact ⟨ha, [], l, rfl, by simp⟩
    | false =>
      rw [List.find?_cons_of_neg _ (by simp [ha])] at h
      obtain ⟨hb, l₁, l₂, heq, hall⟩ := ih h
      subst heq
      refine ⟨hb, a :: l₁, l₂, rfl, ?_⟩
      intro x hx
      rcases List.mem_cons.mp hx with rfl | hx
      · exact ha
      · exact hall x hx

/-- C5: each selected sample is matched to the first listed BAM file whose
name starts with the sample id; when some selected sample has no matching
BAM file, the run fails with the error carrying exactly the unmatched
samples, whatever the external tool does -- so the failure happens before
any coverage tool invocation. -/
theorem unmatched_samples_abort (samples bams : List Str) (s : Str)
    (hs : s ∈ samples) (hnb : ∀ b ∈ bams, startsWithB b s = false) :
    (∀ (tool : Str → ℤ × Str) (bamP bedP covP : Str),
       mainRun samples bams tool bamP bedP covP =
         RunOutcome.noBamError (samplesWithoutBam samples bams)) ∧
    (∀ x : Str, x ∈ samplesWithoutBam samples bams ↔
       x ∈ samples ∧ ∀ b ∈ bams, startsWithB b x = false) ∧
    (∀ u bam : Str, bams.find? (fun b => startsWithB b u) = some bam →
       startsWithB bam u = true ∧
       ∃ l₁ l₂, bams = l₁ ++ bam :: l₂ ∧ ∀ b ∈ l₁, startsWithB b u = false) := by
  have hmem : s ∈ samplesWithoutBam samples bams := by
    unfold samplesWithoutBam
    rw [List.mem_filter]
    refine ⟨List.mem_dedup.mpr hs, ?_⟩
    simp only [Bool.not_eq_true', List.any_eq_false]
    intro b hb
    simp [hnb b hb]
  refine ⟨?_, ?_, fun u bam h => find?_first _ bams bam h⟩
  · intro tool bamP bedP covP
    have hne : samplesWithoutBam samples bams ≠ [] := List.ne_nil_of_mem hmem
    unfold mainRun
    rw [if_neg (by simpa [List.isEmpty_iff] using hne)]
  · intro x
    unfold samplesWithoutBam
    rw [List.mem_filter, List.mem_dedup]
    simp [List.any_eq_false]

/-- Witness for C5: selection [S1, S3] with only S1.bam present aborts with
the unmatched list, for a concrete tool oracle and concrete paths. -/
theorem unmatched_samples_abort_witness :
    mainRun [str "S1", str "S3"] [str "S1.bam"] (fun _ => (0, []))
        (str "A") (str "B") (str "C") =
      RunOutcome.noBamError
        (samplesWithoutBam [str "S1", str "S3"] [str "S1.bam"]) :=
  (unmatched_samples_abort [str "S1", str "S3"] [str "S1.bam"] (str "S3")
    (by decide) (by decide)).1 (fun _ => (0, [])) (str "A") (str "B") (str "C")

/-- C6: when the commands before `bad` all succeed and the command of sample
`bad` exits with nonzero status, the bedtools loop stops at `bad`: exactly
the commands up to and including the failing one are invoked, the error
carries the failing command and its captured stderr, and no later sample is
processed. -/
theorem bedtools_failure_aborts (tool : Str → ℤ × Str) (bamP bedP covP : Str)
    (pre post : List Str) (bad : Str)
    (hpre : ∀ i ∈ pre, (tool (bedtoolsCmd bamP bedP covP i)).1 = 0)
    (hbad : (tool (bedtoolsCmd bamP bedP covP bad)).1 ≠ 0) :
    run_bedtools_get_cov tool bamP bedP covP (pre ++ bad :: post) =
      (pre.map (bedtoolsCmd bamP bedP covP) ++ [bedtoolsCmd bamP bedP covP bad],
       some (bedtoolsCmd bamP bedP covP bad,
         (tool (bedtoolsCmd bamP bedP covP bad)).2)) := by
  induction pre with
  | nil =>
    simp only [List.nil_append, List.map_nil]
    simp only [run_bedtools_get_cov]
    rw [if_neg hbad]
  | cons i pre ih =>
    have h0 : (tool (bedtoolsCmd bamP bedP covP i)).1 = 0 := hpre i (by simp)
    have ih' := ih (fun j hj => hpre j (by simp [hj]))
    simp only [List.cons_append, List.map_cons]
    simp only [run_bedtools_get_cov]
    rw [if_pos h0, ih']

/-- Witness for C6: with the demo oracle, samples [S1, S2, S3] stop at the
failing S2 command, whose stderr is attached, and S3 is never processed. -/
theorem bedtools_failure_aborts_witness :
    run_bedtools_get_cov demoTool (str "A") (str "B") (str "C")
        [str "S1", str "S2", str "S3"] =
      ([bedtoolsCmd (str "A") (str "B") (str "C") (str "S1"),
        bedtoolsCmd (str "A") (str "B") (str "C") (str "S2")],
       some (bedtoolsCmd (str "A") (str "B") (str "C") (str "S2"),
         str "boom")) := by
  have h := bedtools_failure_aborts demoTool (str "A") (str "B") (str "C")
    [str "S1"] [str "S3"] (str "S2") (by decide) (by decide)
  exact h.trans (by decide)
